import Mathlib

/-!
Verification of the CAPTCHA-solving core of src/simple_captcha_gui.py.

The pipeline under study is SimpleCaptchaSolver: preprocessing
(convert to RGB, bicubic resize to 32 x 128, ToTensor, Normalize(0.5, 0.5)),
ONNX inference (treated as an opaque function per the spec), the decode step
(softmax along the last axis followed by Tokenizer.decode), and the GUI
callers that consume the returned solution.

The file tokenizer_base.py is imported by the source but is not part of the
available sources, so the Tokenizer is modelled from the spec (section 4.1),
as noted on each of its definitions.  Probabilities and tensor values are
modelled as rationals; the exponential inside softmax is an abstract
positive function.
-/

namespace Captcha

/-- Modelled from the spec: tokenizer_base.py is missing from the sources.
Token id of the END/EOS special token.  Per the spec (section 3), character
token ids are offset by the reserved special ids; EOS takes id 0 and a
character at charset position i takes id i + 1. -/
def eos_id : Nat := 0

/-- Modelled from the spec: the Tokenizer is constructed once from the fixed
charset string (source line 38, `Tokenizer(self.charset)`). -/
structure Tokenizer where
  charset : List Char

/-- Modelled from the spec: id of the BOS special token, placed after the
character ids. -/
def Tokenizer.bos_id (t : Tokenizer) : Nat := t.charset.length + 1

/-- Modelled from the spec: id of the PAD special token. -/
def Tokenizer.pad_id (t : Tokenizer) : Nat := t.charset.length + 2

/-- Modelled from the spec: vocabulary size = EOS + characters + BOS + PAD. -/
def Tokenizer.vocabSize (t : Tokenizer) : Nat := t.charset.length + 3

/-- First index of a character in a character list, or none. -/
def findIdx (c : Char) : List Char → Option Nat
  | [] => none
  | d :: ds => if d = c then some 0 else (findIdx c ds).map (· + 1)

/-- Modelled from the spec: token id of a character (charset position offset
by the reserved special ids); none when the character is not in the charset
(the UnknownCharacterError case). -/
def Tokenizer.charTokenId (t : Tokenizer) (c : Char) : Option Nat :=
  (findIdx c t.charset).map (· + 1)

/-- Modelled from the spec: `encode` maps each character to its token id and
fails on the first character that is not in the charset. -/
def Tokenizer.encodeChars (t : Tokenizer) : List Char → Option (List Nat)
  | [] => some []
  | c :: cs =>
    match t.charTokenId c, t.encodeChars cs with
    | some i, some is => some (i :: is)
    | _, _ => none

/-- Modelled from the spec: `encode(text) -> sequence of Token`. -/
def Tokenizer.encode (t : Tokenizer) (s : String) : Option (List Nat) :=
  t.encodeChars s.data

/-- Modelled from the spec: map a token id back to its charset character;
ids outside the valid character range (EOS, BOS, PAD, or anything larger)
yield none, the fail-fast internal-invariant-violation case. -/
def Tokenizer.tokToChar (t : Tokenizer) (id : Nat) : Option Char :=
  match id with
  | 0 => none
  | i + 1 => t.charset[i]?

/-- Modelled from the spec: map a list of token ids back to characters,
failing fast on the first id outside the character range. -/
def Tokenizer.tokensToChars (t : Tokenizer) : List Nat → Option (List Char)
  | [] => some []
  | id :: ids =>
    match t.tokToChar id, t.tokensToChars ids with
    | some c, some cs => some (c :: cs)
    | _, _ => none

/-- Index and value of the first maximal element of x :: xs. -/
def argmaxAux (x : ℚ) : List ℚ → Nat × ℚ
  | [] => (0, x)
  | y :: ys =>
    let r := argmaxAux y ys
    if r.2 ≤ x then (0, x) else (r.1 + 1, r.2)

/-- Index and value of the first maximal element of a probability
distribution (the argmax of one per-position distribution). -/
def argmaxPair : List ℚ → Nat × ℚ
  | [] => (0, 0)
  | x :: xs => argmaxAux x xs

/-- Modelled from the spec: decode one batch item.  Take the argmax token at
each position, stop consuming at the first END token (that position is
consumed but END is excluded from the output string), map the remaining
tokens back to charset characters, and return the string together with the
product of the max-probability values at exactly the pre-END positions
(PAD positions after END are non-scoring, per the spec's
truncation-correctness example). -/
def Tokenizer.decodeItem (t : Tokenizer) (dists : List (List ℚ)) :
    Option (String × ℚ) :=
  let consumed := (dists.map argmaxPair).takeWhile (fun p => p.1 != eos_id)
  match t.tokensToChars (consumed.map Prod.fst) with
  | some cs => some (String.mk cs, (consumed.map Prod.snd).prod)
  | none => none

/-- Modelled from the spec: decode every item of a batch, failing fast if
any item hits a token outside the character range. -/
def Tokenizer.decodeItems (t : Tokenizer) :
    List (List (List ℚ)) → Option (List (String × ℚ))
  | [] => some []
  | item :: rest =>
    match t.decodeItem item, t.decodeItems rest with
    | some r, some rs => some (r :: rs)
    | _, _ => none

/-- Modelled from the spec: `decode(probabilityTensor) -> (texts,
confidences)`, the batch decode used at source line 77
(`preds, probs = self.tokenizer.decode(probs)`). -/
def Tokenizer.decode (t : Tokenizer) (batch : List (List (List ℚ))) :
    Option (List String × List ℚ) :=
  (t.decodeItems batch).map (fun l => (l.map Prod.fst, l.map Prod.snd))

/-- One-hot probability distribution with full certainty on one token id
(used to state the spec's round-trip property). -/
def oneHot : Nat → Nat → List ℚ
  | 0, _ => []
  | v + 1, 0 => 1 :: List.replicate v 0
  | v + 1, i + 1 => 0 :: oneHot v i

/-- The charset constant of source line 31 (a Python raw string, so the
backslashes are literal characters): digits, lowercase, uppercase, then
the punctuation block. -/
def captchaCharset : List Char :=
  ((List.range 10).map (fun i => Char.ofNat (48 + i))) ++
  ((List.range 26).map (fun i => Char.ofNat (97 + i))) ++
  ((List.range 26).map (fun i => Char.ofNat (65 + i))) ++
  ([33, 92, 34, 35, 36, 37, 38, 39, 40, 41, 42, 43, 44, 45, 46, 47,
    58, 59, 60, 61, 62, 63, 64, 91, 92, 92, 93, 94, 95, 96,
    123, 124, 125, 126].map Char.ofNat)

/-! ## Preprocessor (source lines 41-48 and 69) -/

/-- An input image of arbitrary size and color mode: `bands` is the number
of channels of the mode (1 for grayscale, 4 for RGBA, ...), `pixel y x c`
the raw 8-bit value of channel c at row y, column x. -/
structure RawImage where
  height : Nat
  width : Nat
  bands : Nat
  pixel : Nat → Nat → Nat → Fin 256

/-- A 3-channel RGB image with 8-bit pixels. -/
structure RGBImage where
  height : Nat
  width : Nat
  pixel : Nat → Nat → Nat → Fin 256

/-- The per-pixel action of PIL convert to RGB (`img.convert('RGB')`,
source line 69), abstracted: any mode-dependent recombination of the
source bands into three 8-bit channels. -/
abbrev Converter : Type := RawImage → Nat → Nat → Nat → Fin 256

/-- PIL convert keeps the image dimensions and forces three channels. -/
def convertRGB (conv : Converter) (raw : RawImage) : RGBImage :=
  { height := raw.height, width := raw.width, pixel := conv raw }

/-- The per-pixel action of the bicubic resampler
(`T.Resize(self.img_size, T.InterpolationMode.BICUBIC)`, source line 44),
abstracted: any interpolation of the source image producing 8-bit values. -/
abbrev Resampler : Type := RGBImage → Nat → Nat → Nat → Fin 256

/-- The target size of the resize, `self.img_size = (32, 128)`
(source line 30). -/
def img_size : Nat × Nat := (32, 128)

/-- T.Resize with a (height, width) pair stretches to exactly that size,
whatever the input dimensions: non-aspect-preserving, no pad, no crop. -/
def resizeTo (rs : Resampler) (size : Nat × Nat) (img : RGBImage) : RGBImage :=
  { height := size.1, width := size.2, pixel := rs img }

/-- A channels x height x width tensor of rational values. -/
abbrev Tensor : Type := List (List (List ℚ))

/-- T.ToTensor (source line 45): channels-first layout, each 8-bit value
scaled to [0, 1] by dividing by 255. -/
def toTensor (img : RGBImage) : Tensor :=
  (List.range 3).map (fun c =>
    (List.range img.height).map (fun y =>
      (List.range img.width).map (fun x =>
        (((img.pixel y x c).val : ℚ)) / 255)))

/-- T.Normalize(0.5, 0.5) (source line 46): (v - mean) / std elementwise. -/
def normalizeT (mean std : ℚ) (t : Tensor) : Tensor :=
  t.map (List.map (List.map (fun v => (v - mean) / std)))

/-- The composed transform of `_get_transform` applied after the RGB
conversion of solve_captcha (source lines 41-48 and 69). -/
def transform (conv : Converter) (rs : Resampler) (raw : RawImage) : Tensor :=
  normalizeT (1/2) (1/2) (toTensor (resizeTo rs img_size (convertRGB conv raw)))

/-- Element access t[c][y][x] of a tensor. -/
def at3 (t : Tensor) (c y x : Nat) : Option ℚ :=
  (t[c]?).bind (fun ch => (ch[y]?).bind (fun row => row[x]?))

/-! ## Inference and decoding pipeline (source lines 65-85) -/

/-- Softmax of one logit row, with the exponential abstracted as e. -/
def softmaxWith (e : ℚ → ℚ) (l : List ℚ) : List ℚ :=
  l.map (fun x => e x / (l.map e).sum)

/-- `softmax(-1)` (source line 74): softmax along the vocabulary axis,
applied independently at every batch item and sequence position. -/
def softmaxLast (e : ℚ → ℚ) (logits : List (List (List ℚ))) :
    List (List (List ℚ)) :=
  logits.map (List.map (softmaxWith e))

/-- The loaded solver: the immutable tokenizer, the transform's abstract
pieces, the ONNX session `run` (first output, batch x seq x vocab logits;
it may fail, modelling any runtime inference exception) and the
exponential used by softmax. -/
structure Solver where
  tokenizer : Tokenizer
  conv : Converter
  rs : Resampler
  run : Tensor → Except String (List (List (List ℚ)))
  e : ℚ → ℚ

/-- Preprocess + inference + softmax (source lines 69-74): the per-position
probability distributions handed to Tokenizer.decode. -/
def Solver.inferProbs (s : Solver) (img : RawImage) :
    Except String (List (List (List ℚ))) :=
  (s.run (transform s.conv s.rs img)).map (softmaxLast s.e)

/-- The decode step (source line 77): delegate to Tokenizer.decode, a
fail-fast tokenizer error becoming a DecodeFailure exception. -/
def Solver.decoded (s : Solver) (img : RawImage) :
    Except String (List String × List ℚ) :=
  match s.inferProbs img with
  | Except.error err => Except.error err
  | Except.ok probs =>
    match s.tokenizer.decode probs with
    | some r => Except.ok r
    | none => Except.error "DecodeFailure"

/-- The body of solve_captcha before the try/except boundary
(source lines 69-81): `result = preds[0]; return result` returns the text
of the first batch item only; `preds[0]` on an empty batch is an
IndexError. -/
def Solver.solveStages (s : Solver) (img : RawImage) : Except String String :=
  match s.decoded img with
  | Except.error err => Except.error err
  | Except.ok (preds, _probs) =>
    match preds.head? with
    | some r => Except.ok r
    | none => Except.error "IndexError"

/-- solve_captcha (source lines 65-85): any exception inside the body is
caught and turned into None. -/
def Solver.solve_captcha (s : Solver) (img : RawImage) : Option String :=
  match s.solveStages img with
  | Except.ok r => some r
  | Except.error _ => none

/-- Following the spec's words (section 6, Output): a solve returns the
pair (text, confidence) of the first batch item, or a failure.  Stated for
comparison with Solver.solve_captcha, which is taken from the source. -/
def Solver.solve_spec (s : Solver) (img : RawImage) : Option (String × ℚ) :=
  match s.decoded img with
  | Except.error _ => none
  | Except.ok (preds, probs) =>
    match preds.head?, probs.head? with
    | some t, some c => some (t, c)
    | _, _ => none

/-- Explicit state threading for one solve call: the source mutates no
solver state, so the call returns the result together with the unchanged
solver. -/
def Solver.solveS (s : Solver) (img : RawImage) : Option String × Solver :=
  (s.solve_captcha img, s)

/-! ## Pipeline construction (source lines 27-63) -/

/-- The environment a construction runs in: whether captcha.onnx exists
(source line 34), whether onnx.load + checker.check_model +
InferenceSession all succeed (source lines 59-61), and the behaviour of
the resulting session and transform pieces. -/
structure Env where
  modelFileExists : Bool
  modelValid : Bool
  conv : Converter
  rs : Resampler
  run : Tensor → Except String (List (List (List ℚ)))
  e : ℚ → ℚ

/-- Construction-time failures of SimpleCaptchaSolver.__init__:
the FileNotFoundError of line 35, or any onnx load/check/session error. -/
inductive InitError where
  | fileNotFound
  | modelLoadError
deriving DecidableEq

/-- SimpleCaptchaSolver.__init__ (source lines 27-39): check the model file
exists, build the tokenizer from the charset constant, then load and check
the ONNX model; any failure propagates, leaving no solver. -/
def initSolver (env : Env) : Except InitError Solver :=
  if env.modelFileExists = false then Except.error InitError.fileNotFound
  else if env.modelValid = false then Except.error InitError.modelLoadError
  else Except.ok
    { tokenizer := { charset := captchaCharset }
      conv := env.conv
      rs := env.rs
      run := env.run
      e := env.e }

/-- The decode step as a standalone pure function of the logit matrix:
softmax along the vocabulary axis, then Tokenizer.decode. -/
def decoderStep (t : Tokenizer) (e : ℚ → ℚ) (logits : List (List (List ℚ))) :
    Option (List String × List ℚ) :=
  t.decode (softmaxLast e logits)

/-- The whole decode stage as a pure function of the inference outcome. -/
def decodedVia (t : Tokenizer) (e : ℚ → ℚ)
    (r : Except String (List (List (List ℚ)))) :
    Except String (List String × List ℚ) :=
  match r with
  | Except.error err => Except.error err
  | Except.ok lg =>
    match decoderStep t e lg with
    | some x => Except.ok x
    | none => Except.error "DecodeFailure"

/-! ## Concrete instances used to exercise the theorems -/

/-- A 1 x 1 all-black test image. -/
def testImgBlack : RawImage :=
  { height := 1, width := 1, bands := 3, pixel := fun _ _ _ => 0 }

/-- A 1 x 1 all-white test image. -/
def testImgWhite : RawImage :=
  { height := 1, width := 1, bands := 3, pixel := fun _ _ _ => 255 }

/-- A converter that spreads the first band everywhere. -/
def testConv : Converter := fun raw _ _ _ => raw.pixel 0 0 0

/-- A resampler that spreads the top-left pixel everywhere. -/
def testRs : Resampler := fun img _ _ _ => img.pixel 0 0 0

/-- A solver whose model answers logits over a 2-token vocabulary
(EOS and the character 0), with different max probabilities for a black
and for a non-black input but the same argmax tokens. -/
def testSolver : Solver :=
  { tokenizer := { charset := captchaCharset }
    conv := testConv
    rs := testRs
    run := fun t => Except.ok
      (if at3 t 0 0 0 = some (-1)
       then [[[1, 3], [6, 2]]]
       else [[[1, 2], [2, 0]]])
    e := id }

/-- A solver whose model always raises at inference time. -/
def failSolver : Solver :=
  { tokenizer := { charset := captchaCharset }
    conv := testConv
    rs := testRs
    run := fun _ => Except.error "InferenceFailure"
    e := id }

/-- An environment in which captcha.onnx is missing. -/
def envNoFile : Env :=
  { modelFileExists := false, modelValid := true
    conv := testConv, rs := testRs
    run := fun _ => Except.ok [], e := id }

/-- An environment in which captcha.onnx exists and loads cleanly. -/
def envGood : Env :=
  { modelFileExists := true, modelValid := true
    conv := testConv, rs := testRs
    run := fun _ => Except.ok [], e := id }

/-! ## GUI callers of solve_captcha (source lines 221-472) -/

/-- Python truthiness of an optional string: None and the empty string are
falsy, any other string truthy. -/
def pyTruthy : Option String → Bool
  | none => false
  | some s => !s.isEmpty

/-- The GUI state touched by the post-solve handling: the solution display,
the copy button, the status bar, the system clipboard, and whether an
error or info dialog was shown. -/
structure GuiState where
  solutionVar : String
  copyBtnEnabled : Bool
  statusVar : String
  clipboard : Option String
  errorBoxShown : Bool
  infoBoxShown : Bool
deriving DecidableEq

/-- solve_from_clipboard after the solve (source lines 244-258):
`if solution:` updates the display, enables the copy button, copies to the
clipboard and shows an info box; otherwise status is set to a failure
message and an error box is shown. -/
def handleClipboardSolve (st : GuiState) (sol : Option String) : GuiState :=
  if pyTruthy sol then
    let s := sol.getD ""
    { st with solutionVar := s, copyBtnEnabled := true,
              statusVar := "Solved", clipboard := some s, infoBoxShown := true }
  else
    { st with statusVar := "Could not solve CAPTCHA", errorBoxShown := true }

/-- auto_solve_clipboard after the solve (source lines 308-324):
`if solution:` updates the display, enables the copy button, copies to the
clipboard and shows an info box; there is no else branch, so a falsy
solution leaves the state untouched. -/
def handleAutoSolve (st : GuiState) (sol : Option String) : GuiState :=
  if pyTruthy sol then
    let s := sol.getD ""
    { st with solutionVar := s, copyBtnEnabled := true,
              statusVar := "Auto-solved", clipboard := some s,
              infoBoxShown := true }
  else st

/-- load_image_file after the solve (source lines 349-361): same truthiness
check, with an error box on the falsy branch. -/
def handleFileSolve (st : GuiState) (sol : Option String) : GuiState :=
  if pyTruthy sol then
    let s := sol.getD ""
    { st with solutionVar := s, copyBtnEnabled := true,
              statusVar := "Solved", clipboard := some s, infoBoxShown := true }
  else
    { st with statusVar := "Could not solve image", errorBoxShown := true }

/-- end_selection of the screen capture after the solve (source lines
447-456): same truthiness check, with an error box on the falsy branch. -/
def handleScreenSolve (st : GuiState) (sol : Option String) : GuiState :=
  if pyTruthy sol then
    let s := sol.getD ""
    { st with solutionVar := s, copyBtnEnabled := true,
              statusVar := "Solved", clipboard := some s, infoBoxShown := true }
  else
    { st with statusVar := "Could not solve selected region",
              errorBoxShown := true }

/-- An idle GUI state before any solve. -/
def guiSt0 : GuiState :=
  { solutionVar := "No solution yet", copyBtnEnabled := false
    statusVar := "Ready", clipboard := none
    errorBoxShown := false, infoBoxShown := false }

/-! ## Helper lemmas -/

lemma findIdx_bound {c : Char} :
    ∀ {l : List Char} {i : Nat}, findIdx c l = some i →
      i < l.length ∧ l[i]? = some c := by
  intro l
  induction l with
  | nil => intro i h; simp [findIdx] at h
  | cons d ds ih =>
    intro i h
    by_cases hd : d = c
    · simp [findIdx, hd] at h
      subst h
      simp [hd]
    · simp [findIdx, hd] at h
      obtain ⟨j, hj, hij⟩ := h
      obtain ⟨hlt, hget⟩ := ih hj
      subst hij
      exact ⟨by simpa using Nat.succ_lt_succ hlt, by simpa using hget⟩

lemma findIdx_eq_none_iff {c : Char} :
    ∀ {l : List Char}, findIdx c l = none ↔ c ∉ l := by
  intro l
  induction l with
  | nil => simp [findIdx]
  | cons d ds ih =>
    by_cases hd : d = c
    · simp [findIdx, hd]
    · simp [findIdx, hd, ih, Ne.symm hd]

lemma charTokenId_some {t : Tokenizer} {c : Char} {id : Nat}
    (h : t.charTokenId c = some id) :
    1 ≤ id ∧ id ≤ t.charset.length ∧ t.tokToChar id = some c := by
  simp only [Tokenizer.charTokenId, Option.map_eq_some'] at h
  obtain ⟨i, hi, hid⟩ := h
  obtain ⟨hlt, hget⟩ := findIdx_bound hi
  subst hid
  exact ⟨Nat.succ_le_succ (Nat.zero_le i), Nat.succ_le_of_lt hlt,
    by simpa [Tokenizer.tokToChar] using hget⟩

lemma charTokenId_none_iff {t : Tokenizer} {c : Char} :
    t.charTokenId c = none ↔ c ∉ t.charset := by
  simp [Tokenizer.charTokenId, findIdx_eq_none_iff]

lemma encodeChars_forall (t : Tokenizer) :
    ∀ (cs : List Char) (ids : List Nat), t.encodeChars cs = some ids →
      List.Forall₂ (fun c id => t.charTokenId c = some id) cs ids := by
  intro cs
  induction cs with
  | nil =>
    intro ids h
    simp [Tokenizer.encodeChars] at h
    subst h
    exact List.Forall₂.nil
  | cons c cs ih =>
    intro ids h
    simp only [Tokenizer.encodeChars] at h
    cases hc : t.charTokenId c with
    | none => rw [hc] at h; exact absurd h (by simp)
    | some i =>
      rw [hc] at h
      cases hcs : t.encodeChars cs with
      | none => rw [hcs] at h; exact absurd h (by simp)
      | some is =>
        rw [hcs] at h
        simp at h
        subst h
        exact List.Forall₂.cons hc (ih is hcs)

lemma encodeChars_none_iff (t : Tokenizer) :
    ∀ (cs : List Char), t.encodeChars cs = none ↔ ∃ c ∈ cs, c ∉ t.charset := by
  intro cs
  induction cs with
  | nil => simp [Tokenizer.encodeChars]
  | cons c cs ih =>
    simp only [Tokenizer.encodeChars]
    cases hc : t.charTokenId c with
    | none =>
      have : c ∉ t.charset := charTokenId_none_iff.mp hc
      simp [this]
    | some i =>
      have hcmem : c ∈ t.charset := by
        by_contra hmem
        rw [charTokenId_none_iff.mpr hmem] at hc
        exact absurd hc (by simp)
      cases hcs : t.encodeChars cs with
      | none =>
        have := ih.mp hcs
        simp only [List.mem_cons]
        constructor
        · intro _
          obtain ⟨d, hd, hnd⟩ := this
          exact ⟨d, Or.inr hd, hnd⟩
        · intro _; trivial
      | some is =>
        simp only [List.mem_cons]
        constructor
        · intro h; exact absurd h (by simp)
        · rintro ⟨d, hd | hd, hnd⟩
          · exact absurd hcmem (hd ▸ hnd)
          · exact absurd hcs (by rw [(ih.mpr ⟨d, hd, hnd⟩)]; simp)

lemma argmaxPair_cons_cons (x y : ℚ) (ys : List ℚ) :
    argmaxPair (x :: y :: ys)
      = if (argmaxPair (y :: ys)).2 ≤ x then (0, x)
        else ((argmaxPair (y :: ys)).1 + 1, (argmaxPair (y :: ys)).2) := rfl

lemma argmaxPair_replicate_zero :
    ∀ v : Nat, argmaxPair (List.replicate (v + 1) 0) = (0, 0) := by
  intro v
  induction v with
  | zero => rfl
  | succ w ih =>
    show argmaxPair ((0 : ℚ) :: (0 : ℚ) :: List.replicate w 0) = (0, 0)
    rw [argmaxPair_cons_cons]
    rw [show ((0 : ℚ) :: List.replicate w 0) = List.replicate (w + 1) 0 from rfl,
      ih]
    norm_num

lemma argmaxPair_oneHot_zero :
    ∀ v : Nat, argmaxPair (oneHot (v + 1) 0) = (0, 1) := by
  intro v
  cases v with
  | zero => rfl
  | succ w =>
    show argmaxPair ((1 : ℚ) :: (0 : ℚ) :: List.replicate w 0) = (0, 1)
    rw [argmaxPair_cons_cons]
    rw [show ((0 : ℚ) :: List.replicate w 0) = List.replicate (w + 1) 0 from rfl,
      argmaxPair_replicate_zero w]
    norm_num

lemma oneHot_ne_nil {v i : Nat} (h : 0 < v) : oneHot v i ≠ [] := by
  cases v with
  | zero => exact absurd h (by simp)
  | succ w => cases i <;> simp [oneHot]

lemma argmaxPair_oneHot :
    ∀ (i v : Nat), i < v → argmaxPair (oneHot v i) = (i, 1) := by
  intro i
  induction i with
  | zero =>
    intro v hv
    cases v with
    | zero => exact absurd hv (by simp)
    | succ w => exact argmaxPair_oneHot_zero w
  | succ j ih =>
    intro v hv
    cases v with
    | zero => exact absurd hv (by simp)
    | succ w =>
      have hj : j < w := Nat.lt_of_succ_lt_succ hv
      have hw : 0 < w := Nat.lt_of_le_of_lt (Nat.zero_le j) hj
      obtain ⟨z, zs, hzs⟩ := List.exists_cons_of_ne_nil (oneHot_ne_nil (i := j) hw)
      show argmaxPair ((0 : ℚ) :: oneHot w j) = (j + 1, 1)
      rw [hzs]
      have hih := ih w hj
      rw [hzs] at hih
      rw [argmaxPair_cons_cons, hih]
      norm_num

lemma takeWhile_all_append {α : Type} (p : α → Bool) :
    ∀ (l1 : List α) (a : α) (l2 : List α),
      (∀ x ∈ l1, p x = true) → p a = false →
      (l1 ++ a :: l2).takeWhile p = l1 := by
  intro l1
  induction l1 with
  | nil => intro a l2 _ ha; simp [List.takeWhile, ha]
  | cons x xs ih =>
    intro a l2 hall ha
    have hx : p x = true := hall x (by simp)
    simp only [List.cons_append, List.takeWhile, hx]
    simp [ih a l2 (fun y hy => hall y (by simp [hy])) ha]

lemma tokensToChars_of_map (t : Tokenizer) :
    ∀ (ids : List Nat) (cs : List Char),
      ids.map t.tokToChar = cs.map some → t.tokensToChars ids = some cs := by
  intro ids
  induction ids with
  | nil =>
    intro cs h
    cases cs with
    | nil => rfl
    | cons c cs => exact absurd h (by simp)
  | cons id ids ih =>
    intro cs h
    cases cs with
    | nil => exact absurd h (by simp)
    | cons c cs =>
      simp only [List.map_cons, List.cons.injEq] at h
      obtain ⟨hc, hcs⟩ := h
      simp [Tokenizer.tokensToChars, hc, ih cs hcs]

lemma decodeItem_eq (t : Tokenizer) (dists tail : List (List ℚ))
    (deos : List ℚ) (chars : List Char)
    (h1 : ∀ d ∈ dists, (argmaxPair d).1 ≠ eos_id)
    (h2 : (argmaxPair deos).1 = eos_id)
    (h3 : dists.map (fun d => t.tokToChar (argmaxPair d).1) = chars.map some) :
    t.decodeItem (dists ++ deos :: tail)
      = some (String.mk chars, (dists.map (fun d => (argmaxPair d).2)).prod) := by
  have hmap : (dists ++ deos :: tail).map argmaxPair
      = dists.map argmaxPair ++ argmaxPair deos :: tail.map argmaxPair := by
    simp
  have htake : ((dists ++ deos :: tail).map argmaxPair).takeWhile
      (fun p => p.1 != eos_id) = dists.map argmaxPair := by
    rw [hmap]
    refine takeWhile_all_append _ _ _ _ ?_ ?_
    · intro x hx
      obtain ⟨d, hd, hdx⟩ := List.mem_map.mp hx
      simp [← hdx, h1 d hd]
    · simp [h2]
  have hchars : ((dists.map argmaxPair).map Prod.fst).map t.tokToChar
      = chars.map some := by
    rw [List.map_map, List.map_map]
    exact h3
  have htoks : t.tokensToChars ((dists.map argmaxPair).map Prod.fst)
      = some chars := tokensToChars_of_map t _ chars hchars
  simp only [Tokenizer.decodeItem, htake, htoks]
  simp only [List.map_map]
  rfl

lemma sum_map_div (l : List ℚ) (S : ℚ) :
    (l.map (fun x => x / S)).sum = l.sum / S := by
  induction l with
  | nil => simp
  | cons x xs ih => simp [ih, add_div]

lemma softmaxWith_dist (e : ℚ → ℚ) (l : List ℚ)
    (hpos : ∀ x, 0 < e x) (hne : l ≠ []) :
    (softmaxWith e l).sum = 1 ∧ ∀ v ∈ softmaxWith e l, 0 < v := by
  have hS : 0 < (l.map e).sum := by
    refine List.sum_pos _ ?_ (by simpa using hne)
    intro x hx
    obtain ⟨y, _, hxy⟩ := List.mem_map.mp hx
    exact hxy ▸ hpos y
  constructor
  · have hrw : softmaxWith e l = (l.map e).map (fun x => x / (l.map e).sum) := by
      simp [softmaxWith, List.map_map]
    rw [hrw, sum_map_div, div_self (ne_of_gt hS)]
  · intro v hv
    obtain ⟨x, _, hxv⟩ := List.mem_map.mp hv
    exact hxv ▸ div_pos (hpos x) hS

lemma tokToChar_map_of_forall (t : Tokenizer) :
    ∀ (cs : List Char) (ids : List Nat),
      List.Forall₂ (fun c id => t.charTokenId c = some id) cs ids →
      ids.map t.tokToChar = cs.map some := by
  intro cs ids h
  induction h with
  | nil => rfl
  | cons hcid _ ih =>
    simp only [List.map_cons, ih, List.cons.injEq, and_true]
    exact (charTokenId_some hcid).2.2

lemma forall_bounds_of_forall (t : Tokenizer) :
    ∀ (cs : List Char) (ids : List Nat),
      List.Forall₂ (fun c id => t.charTokenId c = some id) cs ids →
      ∀ id ∈ ids, 1 ≤ id ∧ id ≤ t.charset.length := by
  intro cs ids h
  induction h with
  | nil => intro id hid; exact absurd hid (by simp)
  | cons hcid _ ih =>
    intro id hid
    rcases List.mem_cons.mp hid with hid | hid
    · obtain ⟨h1, h2, _⟩ := charTokenId_some hcid
      exact hid ▸ ⟨h1, h2⟩
    · exact ih id hid

lemma decode_oneHot_encodeChars (t : Tokenizer) (cs : List Char)
    (ids : List Nat) (h : t.encodeChars cs = some ids) :
    t.decodeItem (ids.map (oneHot t.vocabSize) ++ [oneHot t.vocabSize eos_id])
      = some (String.mk cs, 1) := by
  have hf := encodeChars_forall t cs ids h
  have hb := forall_bounds_of_forall t cs ids hf
  have hlt : ∀ id ∈ ids, id < t.vocabSize := by
    intro id hid
    have := (hb id hid).2
    simp only [Tokenizer.vocabSize]
    omega
  have hargmax : ∀ id ∈ ids,
      argmaxPair (oneHot t.vocabSize id) = (id, 1) := by
    intro id hid
    exact argmaxPair_oneHot id t.vocabSize (hlt id hid)
  have h1 : ∀ d ∈ ids.map (oneHot t.vocabSize), (argmaxPair d).1 ≠ eos_id := by
    intro d hd
    obtain ⟨id, hid, hdid⟩ := List.mem_map.mp hd
    rw [← hdid, hargmax id hid]
    have := (hb id hid).1
    simp only [eos_id]
    omega
  have h2 : (argmaxPair (oneHot t.vocabSize eos_id)).1 = eos_id := by
    have hv : 0 < t.vocabSize := by simp only [Tokenizer.vocabSize]; omega
    rw [show eos_id = 0 from rfl, argmaxPair_oneHot 0 t.vocabSize hv]
  have h3 : (ids.map (oneHot t.vocabSize)).map
      (fun d => t.tokToChar (argmaxPair d).1) = cs.map some := by
    rw [List.map_map]
    have hcong : ids.map (fun id => t.tokToChar
        (argmaxPair (oneHot t.vocabSize id)).1) = ids.map t.tokToChar := by
      refine List.map_congr_left ?_
      intro id hid
      rw [hargmax id hid]
    calc ids.map ((fun d => t.tokToChar (argmaxPair d).1) ∘ oneHot t.vocabSize)
        = ids.map (fun id => t.tokToChar (argmaxPair (oneHot t.vocabSize id)).1) := rfl
      _ = ids.map t.tokToChar := hcong
      _ = cs.map some := tokToChar_map_of_forall t cs ids hf
  have hres := decodeItem_eq t (ids.map (oneHot t.vocabSize)) []
    (oneHot t.vocabSize eos_id) cs h1 h2 h3
  rw [hres]
  have hprod : ((ids.map (oneHot t.vocabSize)).map
      (fun d => (argmaxPair d).2)).prod = 1 := by
    refine List.prod_eq_one ?_
    intro x hx
    rw [List.map_map] at hx
    obtain ⟨id, hid, hidx⟩ := List.mem_map.mp hx
    have : (argmaxPair (oneHot t.vocabSize id)).2 = 1 := by
      rw [hargmax id hid]
    simpa [this] using hidx.symm
  rw [hprod]

lemma pix_bounds (p : Fin 256) :
    (0 ≤ ((p.val : ℚ) / 255) ∧ ((p.val : ℚ) / 255) ≤ 1)
    ∧ (-1 ≤ (((p.val : ℚ) / 255) - 1/2) / (1/2)
       ∧ (((p.val : ℚ) / 255) - 1/2) / (1/2) ≤ 1) := by
  have h0 : (0 : ℚ) ≤ (p.val : ℚ) := Nat.cast_nonneg _
  have h255 : ((p.val : ℚ)) ≤ 255 := by
    have hle : p.val ≤ 255 := Nat.lt_succ_iff.mp p.isLt
    exact_mod_cast hle
  have hq0 : 0 ≤ (p.val : ℚ) / 255 := div_nonneg h0 (by norm_num)
  have hq1 : (p.val : ℚ) / 255 ≤ 1 := (div_le_one (by norm_num)).mpr h255
  have heq : (((p.val : ℚ) / 255) - 1/2) / (1/2)
      = 2 * ((p.val : ℚ) / 255) - 1 := by ring
  refine ⟨⟨hq0, hq1⟩, ?_, ?_⟩ <;> rw [heq] <;> linarith

lemma transform_shape (conv : Converter) (rs : Resampler) (raw : RawImage) :
    (transform conv rs raw).length = 3
    ∧ ∀ ch ∈ transform conv rs raw,
        ch.length = 32 ∧ ∀ row ∈ ch, row.length = 128 := by
  constructor
  · simp [transform, normalizeT, toTensor, resizeTo, img_size]
  · intro ch hch
    simp only [transform, normalizeT, List.mem_map] at hch
    obtain ⟨ch0, hch0, rfl⟩ := hch
    simp only [toTensor, List.mem_map] at hch0
    obtain ⟨c, hc, rfl⟩ := hch0
    constructor
    · simp [resizeTo, img_size]
    · intro row hrow
      simp only [List.mem_map] at hrow
      obtain ⟨row0, hrow0, rfl⟩ := hrow
      obtain ⟨y, hy, rfl⟩ := hrow0
      simp [resizeTo, img_size]

lemma transform_at3 (conv : Converter) (rs : Resampler) (raw : RawImage)
    (c y x : Nat) (hc : c < 3) (hy : y < 32) (hx : x < 128) :
    at3 (transform conv rs raw) c y x
      = some (((((rs (convertRGB conv raw) y x c).val : ℚ)) / 255 - 1/2)
          / (1/2)) := by
  simp [at3, transform, normalizeT, toTensor, resizeTo, img_size,
    List.getElem?_map, List.getElem?_range, hc, hy, hx]

lemma toTensor_bounds (img : RGBImage) :
    ∀ ch ∈ toTensor img, ∀ row ∈ ch, ∀ v ∈ row, 0 ≤ v ∧ v ≤ 1 := by
  intro ch hch row hrow v hv
  simp only [toTensor, List.mem_map] at hch
  obtain ⟨c, _, rfl⟩ := hch
  obtain ⟨y, _, rfl⟩ := List.mem_map.mp hrow
  obtain ⟨x, _, rfl⟩ := List.mem_map.mp hv
  exact (pix_bounds (img.pixel y x c)).1

lemma transform_bounds (conv : Converter) (rs : Resampler) (raw : RawImage) :
    ∀ ch ∈ transform conv rs raw, ∀ row ∈ ch, ∀ v ∈ row,
      -1 ≤ v ∧ v ≤ 1 := by
  intro ch hch row hrow v hv
  simp only [transform, normalizeT, List.mem_map] at hch
  obtain ⟨ch0, hch0, rfl⟩ := hch
  obtain ⟨row0, hrow0, rfl⟩ := List.mem_map.mp hrow
  obtain ⟨v0, hv0, rfl⟩ := List.mem_map.mp hv
  simp only [toTensor, List.mem_map] at hch0
  obtain ⟨c, _, rfl⟩ := hch0
  obtain ⟨y, _, rfl⟩ := List.mem_map.mp hrow0
  obtain ⟨x, _, rfl⟩ := List.mem_map.mp hv0
  exact (pix_bounds ((resizeTo rs img_size (convertRGB conv raw)).pixel y x c)).2

lemma decode_shape (t : Tokenizer) (probs : List (List (List ℚ)))
    (r : List String × List ℚ) (h : t.decode probs = some r) :
    ∃ l : List (String × ℚ), r = (l.map Prod.fst, l.map Prod.snd) := by
  unfold Tokenizer.decode at h
  cases hi : t.decodeItems probs with
  | none => rw [hi] at h; exact absurd h (by simp)
  | some l =>
    rw [hi] at h
    simp at h
    exact ⟨l, h.symm⟩

lemma decoded_ok_shape (s : Solver) (img : RawImage)
    (r : List String × List ℚ) (h : s.decoded img = Except.ok r) :
    ∃ l : List (String × ℚ), r = (l.map Prod.fst, l.map Prod.snd) := by
  unfold Solver.decoded at h
  split at h
  · exact absurd h (by simp)
  · rename_i probs heq
    split at h
    · rename_i r2 heq2
      have hr : r2 = r := by simpa using h
      exact hr ▸ decode_shape s.tokenizer probs r2 heq2
    · exact absurd h (by simp)

lemma solve_eq_spec_fst (s : Solver) (img : RawImage) :
    s.solve_captcha img = (s.solve_spec img).map Prod.fst := by
  cases hd : s.decoded img with
  | error e =>
    simp [Solver.solve_captcha, Solver.solveStages, Solver.solve_spec, hd]
  | ok r =>
    obtain ⟨l, rfl⟩ := decoded_ok_shape s img r hd
    cases l with
    | nil =>
      simp [Solver.solve_captcha, Solver.solveStages, Solver.solve_spec, hd]
    | cons a l2 =>
      simp [Solver.solve_captcha, Solver.solveStages, Solver.solve_spec, hd]

lemma decoded_via_run (s : Solver) (img : RawImage) :
    s.decoded img
      = decodedVia s.tokenizer s.e (s.run (transform s.conv s.rs img)) := by
  unfold Solver.decoded Solver.inferProbs decodedVia decoderStep
  cases s.run (transform s.conv s.rs img) <;> simp [Except.map]

lemma testSolver_decoded_black :
    testSolver.decoded testImgBlack = Except.ok (["0"], [3/4]) := by
  have hpix : (testRs (convertRGB testConv testImgBlack) 0 0 0).val = 0 := rfl
  have hconv : testSolver.conv = testConv := rfl
  have hrs : testSolver.rs = testRs := rfl
  have he : testSolver.e = id := rfl
  have htok : testSolver.tokenizer = { charset := captchaCharset } := rfl
  have hch : captchaCharset[0]? = some '0' := by decide
  have hbne : (1 != 0) = true := rfl
  have hstr : String.mk ['0'] = "0" := rfl
  have h1 : at3 (transform testConv testRs testImgBlack) 0 0 0
      = some (-1) := by
    rw [transform_at3 testConv testRs testImgBlack 0 0 0 (by norm_num)
      (by norm_num) (by norm_num), hpix]
    norm_num
  have hrun : testSolver.run (transform testConv testRs testImgBlack)
      = Except.ok [[[1, 3], [6, 2]]] := by
    simp [testSolver, h1]
  rw [decoded_via_run, hconv, hrs, hrun, htok, he]
  norm_num [decodedVia, decoderStep, softmaxLast, softmaxWith,
    Tokenizer.decode, Tokenizer.decodeItems, Tokenizer.decodeItem,
    argmaxPair, argmaxAux, Tokenizer.tokensToChars, Tokenizer.tokToChar,
    eos_id, hch, hstr, hbne, List.takeWhile]

lemma testSolver_decoded_white :
    testSolver.decoded testImgWhite = Except.ok (["0"], [2/3]) := by
  have hpix : (testRs (convertRGB testConv testImgWhite) 0 0 0).val = 255 := rfl
  have hconv : testSolver.conv = testConv := rfl
  have hrs : testSolver.rs = testRs := rfl
  have he : testSolver.e = id := rfl
  have htok : testSolver.tokenizer = { charset := captchaCharset } := rfl
  have hch : captchaCharset[0]? = some '0' := by decide
  have hbne : (1 != 0) = true := rfl
  have hstr : String.mk ['0'] = "0" := rfl
  have h1 : at3 (transform testConv testRs testImgWhite) 0 0 0
      = some 1 := by
    rw [transform_at3 testConv testRs testImgWhite 0 0 0 (by norm_num)
      (by norm_num) (by norm_num), hpix]
    norm_num
  have hrun : testSolver.run (transform testConv testRs testImgWhite)
      = Except.ok [[[1, 2], [2, 0]]] := by
    simp only [testSolver]
    rw [h1]
    norm_num
  rw [decoded_via_run, hconv, hrs, hrun, htok, he]
  norm_num [decodedVia, decoderStep, softmaxLast, softmaxWith,
    Tokenizer.decode, Tokenizer.decodeItems, Tokenizer.decodeItem,
    argmaxPair, argmaxAux, Tokenizer.tokensToChars, Tokenizer.tokToChar,
    eos_id, hch, hstr, hbne, List.takeWhile]

/-! ## Claim theorems -/

/-- C1: Tokenizer.decode takes the argmax token at each position, stops
consuming at the first END token (that position is consumed but END is
excluded from the output), maps the remaining tokens back to charset
characters, and returns as confidence the product of the max-probability
values at exactly the consumed (pre-END) positions; PAD positions after
END are excluded both from the string and from the confidence.  The batch
decode applies this to every batch item. -/
theorem C1_decode_truncation (t : Tokenizer) (dists tail : List (List ℚ))
    (deos : List ℚ) (chars : List Char)
    (h1 : ∀ d ∈ dists, (argmaxPair d).1 ≠ eos_id)
    (h2 : (argmaxPair deos).1 = eos_id)
    (h3 : dists.map (fun d => t.tokToChar (argmaxPair d).1) = chars.map some) :
    t.decodeItem (dists ++ deos :: tail)
      = some (String.mk chars, (dists.map (fun d => (argmaxPair d).2)).prod)
    ∧ ∀ batch : List (List (List ℚ)),
        t.decode batch
          = (t.decodeItems batch).map (fun l => (l.map Prod.fst, l.map Prod.snd)) :=
  ⟨decodeItem_eq t dists tail deos chars h1 h2 h3, fun _ => rfl⟩

/-- C1 witness: the token sequence c1, c2, END, PAD, PAD (c1 = token 1
with max probability 3/4, c2 = token 2 with max probability 1/2 over the
real charset, END certain, PADs certain) decodes to the two-character
string 01, and the confidence is the product over exactly the first two
positions' max probabilities, not four. -/
theorem C1_witness :
    Tokenizer.decodeItem { charset := captchaCharset }
      ([[0, mkRat 3 4, mkRat 1 4, 0], [0, 0, mkRat 1 2, mkRat 1 2]]
        ++ [1, 0, 0, 0] :: [[0, 0, 0, 1], [0, 0, 0, 1]])
      = some (String.mk ['0', '1'],
          ([[0, mkRat 3 4, mkRat 1 4, 0], [0, 0, mkRat 1 2, mkRat 1 2]].map
            (fun d => (argmaxPair d).2)).prod) :=
  (C1_decode_truncation { charset := captchaCharset }
    [[0, mkRat 3 4, mkRat 1 4, 0], [0, 0, mkRat 1 2, mkRat 1 2]]
    [[0, 0, 0, 1], [0, 0, 0, 1]]
    [1, 0, 0, 0] ['0', '1'] (by decide) (by decide) (by decide)).1

/-- C7: round-trip: for a string that encodes (all characters in the
charset), rendering the token ids as one-hot distributions with full
certainty followed by the END token and decoding reproduces the string
exactly (with confidence 1); and encode fails exactly when some character
of the input is not in the charset. -/
theorem C7_roundtrip (t : Tokenizer) (s : String) :
    (∀ ids, t.encode s = some ids →
        t.decodeItem (ids.map (oneHot t.vocabSize)
            ++ [oneHot t.vocabSize eos_id])
          = some (s, 1))
    ∧ (t.encode s = none ↔ ∃ c ∈ s.data, c ∉ t.charset) := by
  constructor
  · intro ids h
    have hdec := decode_oneHot_encodeChars t s.data ids h
    simpa [show String.mk s.data = s from rfl] using hdec
  · simp only [Tokenizer.encode]
    exact encodeChars_none_iff t s.data

/-- C7 witness: over the real charset, the string ab encodes to the token
ids 11, 12 and decoding their one-hot rendering (followed by END)
reproduces ab with confidence 1. -/
theorem C7_witness :
    Tokenizer.decodeItem { charset := captchaCharset }
      ([11, 12].map (oneHot (Tokenizer.mk captchaCharset).vocabSize)
        ++ [oneHot (Tokenizer.mk captchaCharset).vocabSize eos_id])
      = some ("ab", 1) :=
  (C7_roundtrip { charset := captchaCharset } "ab").1 [11, 12] (by decide)

/-- C8: an immediate-END prediction (END at the first position, anything,
e.g. PADs, afterwards) decodes to the empty string, and the confidence is
the single well-defined value 1 (the empty product over zero consumed
character positions), the same on every such input. -/
theorem C8_empty_sequence (t : Tokenizer) (deos : List ℚ)
    (tail : List (List ℚ)) (h : (argmaxPair deos).1 = eos_id) :
    t.decodeItem (deos :: tail) = some ("", 1) := by
  have hres := decodeItem_eq t [] tail deos [] (by simp) h (by simp)
  simpa using hres

/-- C8 witness: the token sequence END, PAD, PAD decodes to the empty
string with confidence 1. -/
theorem C8_witness :
    Tokenizer.decodeItem { charset := captchaCharset }
      [[1, 0, 0, 0], [0, 0, 0, 1], [0, 0, 0, 1]] = some ("", 1) :=
  C8_empty_sequence { charset := captchaCharset } [1, 0, 0, 0]
    [[0, 0, 0, 1], [0, 0, 0, 1]] (by decide)

/-- C2: for every input image, of any dimensions and any color mode, the
preprocessing transform emits a tensor of exactly 3 x 32 x 128 (independent
of the input dimensions), where the value at channel c, row y, column x is
(p/255 - 0.5) / 0.5 for the resized pixel p, the pre-normalization values
lie in [0, 1], and every output value lies in [-1, 1]. -/
theorem C2_preprocessor_contract (conv : Converter) (rs : Resampler)
    (raw : RawImage) :
    ((transform conv rs raw).length = 3
      ∧ ∀ ch ∈ transform conv rs raw,
          ch.length = 32 ∧ ∀ row ∈ ch, row.length = 128)
    ∧ (∀ c y x : Nat, c < 3 → y < 32 → x < 128 →
        at3 (transform conv rs raw) c y x
          = some (((((rs (convertRGB conv raw) y x c).val : ℚ)) / 255 - 1/2)
              / (1/2)))
    ∧ (∀ ch ∈ toTensor (resizeTo rs img_size (convertRGB conv raw)),
        ∀ row ∈ ch, ∀ v ∈ row, 0 ≤ v ∧ v ≤ 1)
    ∧ (∀ ch ∈ transform conv rs raw, ∀ row ∈ ch, ∀ v ∈ row,
        -1 ≤ v ∧ v ≤ 1) :=
  ⟨transform_shape conv rs raw,
   fun c y x hc hy hx => transform_at3 conv rs raw c y x hc hy hx,
   toTensor_bounds _,
   transform_bounds conv rs raw⟩

/-- C2 witness: evaluating the transform of the all-black 1 x 1 test image
at channel 0, position (0, 0). -/
theorem C2_witness :
    at3 (transform testConv testRs testImgBlack) 0 0 0
      = some (((((testRs (convertRGB testConv testImgBlack) 0 0 0).val : ℚ))
          / 255 - 1/2) / (1/2)) :=
  (C2_preprocessor_contract testConv testRs testImgBlack).2.1 0 0 0
    (by decide) (by decide) (by decide)

/-- C3: the decode step is a pure function of the logit matrix: the decode
stage of solve_captcha equals a pure function (decodedVia) of the tokenizer,
the exponential, and the raw logits; that function delegates to
Tokenizer.decode after softmax; softmax is applied along the vocabulary
axis independently at each batch item and position; and each per-position
softmax row is a probability distribution (sums to 1, entries positive)
whenever the exponential is positive. -/
theorem C3_decoder_pure (s : Solver) (img : RawImage) (e : ℚ → ℚ)
    (logits : List (List (List ℚ))) (l : List ℚ) :
    (s.decoded img
      = decodedVia s.tokenizer s.e (s.run (transform s.conv s.rs img)))
    ∧ (decoderStep s.tokenizer s.e logits
        = s.tokenizer.decode (softmaxLast s.e logits))
    ∧ (∀ i : Nat, (softmaxLast e logits)[i]?
        = (logits[i]?).map (List.map (softmaxWith e)))
    ∧ ((∀ x, 0 < e x) → l ≠ [] →
        (softmaxWith e l).sum = 1 ∧ ∀ v ∈ softmaxWith e l, 0 < v) :=
  ⟨decoded_via_run s img, rfl,
   fun i => by simp [softmaxLast, List.getElem?_map],
   fun hpos hne => softmaxWith_dist e l hpos hne⟩

/-- C3 witness: with the constant exponential 1, the softmax of the
two-logit row 0, 0 is a probability distribution. -/
theorem C3_witness :
    (softmaxWith (fun _ => (1 : ℚ)) [0, 0]).sum = 1
    ∧ ∀ v ∈ softmaxWith (fun _ => (1 : ℚ)) [0, 0], 0 < v :=
  (C3_decoder_pure failSolver testImgBlack (fun _ => 1) [] [0, 0]).2.2.2
    (fun _ => one_pos) (by decide)

/-- C4 amended: solve_captcha returns the decoded text alone (or None),
namely the first component of what the spec's (text, confidence) interface
would return; the confidence computed by the tokenizer is discarded. -/
theorem C4_text_only (s : Solver) (img : RawImage) :
    s.solve_captcha img = (s.solve_spec img).map Prod.fst :=
  solve_eq_spec_fst s img

/-- C4 counterexample: two concrete solves whose decoded confidences differ
(3/4 for the black input, 2/3 for the white input, as the spec-shaped
interface solve_spec shows) return the identical bare string some "0" from
solve_captcha: the value handed to the caller is the text alone, with no
confidence component, refuting that the output is always the pair
(text, confidence) or a failure. -/
theorem C4_counterexample :
    testSolver.solve_captcha testImgBlack = some "0"
    ∧ testSolver.solve_captcha testImgWhite = some "0"
    ∧ testSolver.solve_spec testImgBlack = some ("0", 3/4)
    ∧ testSolver.solve_spec testImgWhite = some ("0", 2/3)
    ∧ ((3 : ℚ)/4 ≠ 2/3) := by
  refine ⟨?_, ?_, ?_, ?_, by norm_num⟩
  · simp [Solver.solve_captcha, Solver.solveStages, testSolver_decoded_black]
  · simp [Solver.solve_captcha, Solver.solveStages, testSolver_decoded_white]
  · simp [Solver.solve_spec, testSolver_decoded_black]
  · simp [Solver.solve_spec, testSolver_decoded_white]

/-- C5: every per-request failure of the solve body is caught at the
boundary and becomes None; successes become the value; a call leaves the
solver unchanged, so a failing request does not affect subsequent requests;
and construction failures are not caught: a missing model file propagates
as an error from initSolver. -/
theorem C5_failure_boundary :
    (∀ (s : Solver) (img : RawImage) (err : String),
        s.solveStages img = Except.error err → s.solve_captcha img = none)
    ∧ (∀ (s : Solver) (img : RawImage) (r : String),
        s.solveStages img = Except.ok r → s.solve_captcha img = some r)
    ∧ (∀ (s : Solver) (i1 i2 : RawImage),
        ((s.solveS i1).2).solve_captcha i2 = s.solve_captcha i2)
    ∧ (∀ env : Env, env.modelFileExists = false →
        initSolver env = Except.error InitError.fileNotFound) := by
  refine ⟨?_, ?_, ?_, ?_⟩
  · intro s img err h
    simp [Solver.solve_captcha, h]
  · intro s img r h
    simp [Solver.solve_captcha, h]
  · intro s i1 i2
    rfl
  · intro env h
    simp [initSolver, h]

/-- C5 witness: a solver whose inference always raises yields None, and
construction in an environment without captcha.onnx propagates the
FileNotFoundError. -/
theorem C5_witness :
    failSolver.solve_captcha testImgBlack = none
    ∧ initSolver envNoFile = Except.error InitError.fileNotFound :=
  ⟨C5_failure_boundary.1 failSolver testImgBlack "InferenceFailure" rfl,
   C5_failure_boundary.2.2.2 envNoFile rfl⟩

/-- C6: construction succeeds exactly when the model artifact exists and
loads and validates cleanly; a missing artifact gives the file-not-found
error, an invalid artifact the model-load error, and in the failing cases
no solver value exists at all. -/
theorem C6_init_contract (env : Env) :
    ((∃ s, initSolver env = Except.ok s)
      ↔ (env.modelFileExists = true ∧ env.modelValid = true))
    ∧ (env.modelFileExists = false →
        initSolver env = Except.error InitError.fileNotFound)
    ∧ (env.modelFileExists = true → env.modelValid = false →
        initSolver env = Except.error InitError.modelLoadError) := by
  cases hf : env.modelFileExists <;> cases hv : env.modelValid <;>
    simp [initSolver, hf, hv]

/-- C6 witness: construction succeeds in the good environment and fails
with the file-not-found error when the artifact is missing. -/
theorem C6_witness :
    (∃ s, initSolver envGood = Except.ok s)
    ∧ initSolver envNoFile = Except.error InitError.fileNotFound :=
  ⟨(C6_init_contract envGood).1.mpr ⟨rfl, rfl⟩,
   (C6_init_contract envNoFile).2.1 rfl⟩

/-- C9: determinism: with the model embedded as a pure function (as the
spec prescribes), two sequential solve calls on the same input return the
same result, leave the solver unchanged, and see identical logits and
identical decode outcomes. -/
theorem C9_determinism (s : Solver) (img : RawImage) :
    ((s.solveS img).1 = (((s.solveS img).2).solveS img).1)
    ∧ ((((s.solveS img).2).solveS img).2 = s)
    ∧ (((s.solveS img).2).run (transform s.conv s.rs img)
        = s.run (transform s.conv s.rs img))
    ∧ (((s.solveS img).2).decoded img = s.decoded img) :=
  ⟨rfl, rfl, rfl, rfl⟩

/-- C10 counterexample: in the auto-monitor caller there is no failure
branch, so an empty-string solution reports no error at all (the GUI state
is completely unchanged), refuting that an error is reported in every
caller. -/
theorem C10_counterexample :
    handleAutoSolve guiSt0 (some "") = guiSt0
    ∧ (handleAutoSolve guiSt0 (some "")).errorBoxShown = false :=
  ⟨rfl, rfl⟩

/-- C10 amended: an empty-string solution is indistinguishable from None in
every caller; the clipboard, file and screen-capture callers take the
failure branch (solution display and clipboard untouched, error reported),
while the auto-monitor caller silently leaves the whole GUI state unchanged
in both cases, reporting no error. -/
theorem C10_empty_as_failure (st : GuiState) :
    (handleClipboardSolve st (some "") = handleClipboardSolve st none)
    ∧ (handleAutoSolve st (some "") = handleAutoSolve st none)
    ∧ (handleFileSolve st (some "") = handleFileSolve st none)
    ∧ (handleScreenSolve st (some "") = handleScreenSolve st none)
    ∧ ((handleClipboardSolve st none).solutionVar = st.solutionVar
        ∧ (handleClipboardSolve st none).clipboard = st.clipboard
        ∧ (handleClipboardSolve st none).copyBtnEnabled = st.copyBtnEnabled
        ∧ (handleClipboardSolve st none).errorBoxShown = true)
    ∧ ((handleFileSolve st none).solutionVar = st.solutionVar
        ∧ (handleFileSolve st none).clipboard = st.clipboard
        ∧ (handleFileSolve st none).errorBoxShown = true)
    ∧ ((handleScreenSolve st none).solutionVar = st.solutionVar
        ∧ (handleScreenSolve st none).clipboard = st.clipboard
        ∧ (handleScreenSolve st none).errorBoxShown = true)
    ∧ handleAutoSolve st none = st := by
  have hemp : "".isEmpty = true := rfl
  simp [handleClipboardSolve, handleAutoSolve, handleFileSolve,
    handleScreenSolve, pyTruthy, hemp]

end Captcha
